import Mathlib

/-!
Verification of the in-memory CloudWatch Logs emulator (`moto/logs/models.py`).

The Python source is shallowly embedded: each method becomes an executable Lean
function over explicit state; raised exceptions become `Except` errors; the
process clock (`unix_time_millis`) and the class-level event-id counter become
explicit parameters.  Python `int` is modelled by `Int`/`Nat`, Python `str` by
`String` (so Python `len` on a string is `String.length`, the number of code
points).
-/

deriving instance DecidableEq for Except

namespace Moto

/-- Exceptions raised by the logs backend (`moto/logs/exceptions.py` plus the
`NotImplementedError` raised by `LogStream.filter_log_events`). -/
inductive LogsError where
  | ResourceNotFound
  | ResourceAlreadyExists
  | InvalidParameter (msg : String)
  | NotImplemented (msg : String)
deriving DecidableEq

/-- The decimal digit character for `n < 10`, i.e. `chr(48 + n)`. -/
def digitChar (n : Nat) : Char := Char.ofNat (48 + n)

/-- Most-significant-first decimal digits of `n`, with explicit fuel (the fuel
`n + 1` always suffices since `n / 10 < n` for `n ≥ 10`).  This renders exactly
what Python `"{:d}".format(n)` renders for a natural number. -/
def natToDigitsAux : Nat → Nat → List Char
  | 0, _ => []
  | fuel + 1, n => if n < 10 then [digitChar n] else natToDigitsAux fuel (n / 10) ++ [digitChar (n % 10)]

/-- Decimal digit string of a natural number (e.g. `natDigits 120 = ['1','2','0']`). -/
def natDigits (n : Nat) : List Char := natToDigitsAux (n + 1) n

/-- Value of a most-significant-first decimal digit list. -/
def digitsToNat (cs : List Char) : Nat := cs.foldl (fun a c => 10 * a + (c.toNat - 48)) 0

/-- Left-pad a digit list with `'0'` up to the given total width (no truncation). -/
def zeroPad (width : Nat) (ds : List Char) : List Char :=
  List.replicate (width - ds.length) '0' ++ ds

/-- Python `"{:056d}".format(i)`: zero-pad to a total width of 56 characters,
the sign (for negative `i`) counting towards the width. -/
def format056 (i : Int) : String :=
  if i < 0 then String.mk ('-' :: zeroPad 55 (natDigits i.natAbs))
  else String.mk (zeroPad 56 (natDigits i.toNat))

/-- The zero code point of every run of Unicode decimal digits (general
category Nd): each script's digits occupy the ten consecutive code points
starting here.  This is the table CPython's str-to-int conversion consults
(`Py_UNICODE_TODECIMAL`); ASCII first. -/
def pyDigitZeros : List Nat :=
  [0x30, 0x660, 0x6F0, 0x7C0, 0x966, 0x9E6, 0xA66, 0xAE6, 0xB66, 0xBE6,
   0xC66, 0xCE6, 0xD66, 0xDE6, 0xE50, 0xED0, 0xF20, 0x1040, 0x1090, 0x17E0,
   0x1810, 0x1946, 0x19D0, 0x1A80, 0x1A90, 0x1B50, 0x1BB0, 0x1C40, 0x1C50, 0xA620,
   0xA8D0, 0xA900, 0xA9D0, 0xA9F0, 0xAA50, 0xABF0, 0xFF10,
   0x104A0, 0x10D30, 0x11066, 0x110F0, 0x11136, 0x111D0, 0x112F0, 0x11450, 0x114D0,
   0x11650, 0x116C0, 0x11730, 0x118E0, 0x11950, 0x11C50, 0x11D50, 0x11DA0, 0x11F50,
   0x16A60, 0x16AC0, 0x16B50, 0x1D7CE, 0x1D7D8, 0x1D7E2, 0x1D7EC, 0x1D7F6,
   0x1E140, 0x1E2F0, 0x1E4F0, 0x1E950, 0x1FBF0]

/-- The decimal value of a Unicode decimal digit (Nd), `none` for any other
character. -/
def pyUnicodeDecimal? (c : Char) : Option Nat :=
  match pyDigitZeros.find? (fun z => z ≤ c.toNat && c.toNat ≤ z + 9) with
  | some z => some (c.toNat - z)
  | none => none

/-- `Py_UNICODE_ISSPACE`: the characters Python's str-to-int conversion treats
as whitespace (ASCII control whitespace, the information separators
`U+001C`–`U+001F`, and the Unicode space/line/paragraph separators). -/
def pyUnicodeIsSpace (c : Char) : Bool :=
  ([0x09, 0x0A, 0x0B, 0x0C, 0x0D, 0x1C, 0x1D, 0x1E, 0x1F, 0x20,
    0x85, 0xA0, 0x1680, 0x2000, 0x2001, 0x2002, 0x2003, 0x2004, 0x2005, 0x2006,
    0x2007, 0x2008, 0x2009, 0x200A, 0x2028, 0x2029, 0x202F, 0x205F, 0x3000] : List Nat).contains
    c.toNat

/-- CPython's `_PyUnicode_TransformDecimalAndSpaceToASCII`, applied per
character before parsing: any Unicode decimal digit becomes its ASCII digit,
any Unicode whitespace becomes `' '`, everything else is kept (and then fails
the parse unless it is a sign, an underscore in a legal position, or already
an ASCII digit). -/
def pyTransformChar (c : Char) : Char :=
  match pyUnicodeDecimal? c with
  | some d => digitChar d
  | none => if pyUnicodeIsSpace c then ' ' else c

/-- The tail of CPython's base-10 digit parser, entered after the first digit:
further digits, single underscores that must sit between two digits, and
trailing whitespace (already normalised to `' '`) followed by end of input.
Returns the remaining digit characters. -/
def pyIntTail? : List Char → Option (List Char)
  | [] => some []
  | c :: rest =>
    if c.isDigit then (pyIntTail? rest).map (fun ds => c :: ds)
    else if c = '_' then
      match rest with
      | [] => none
      | d :: rest2 => if d.isDigit then (pyIntTail? rest2).map (fun ds => d :: ds) else none
    else if c = ' ' then
      if rest.all (fun x => x = ' ') then some [] else none
    else none

/-- Python `int(s)` on the character list of `s`, mirroring CPython: transform
Unicode digits and whitespace to ASCII, strip surrounding whitespace, then an
optional sign directly followed by a non-empty run of digits with optional
single underscores between digits. -/
def pyIntOfChars? (cs : List Char) : Option Int :=
  let t := (cs.map pyTransformChar).dropWhile (fun c => c = ' ')
  match t with
  | [] => none
  | c :: rest =>
    let signed : Bool × List Char :=
      if c = '-' then (true, rest) else if c = '+' then (false, rest) else (false, c :: rest)
    match signed.2 with
    | [] => none
    | d :: rest2 =>
      if d.isDigit then
        match pyIntTail? rest2 with
        | some ds =>
          some (if signed.1 then -((digitsToNat (d :: ds) : Nat) : Int)
                else ((digitsToNat (d :: ds) : Nat) : Int))
        | none => none
      else none

/-- The backward cursor token `"b/{:056d}".format(i)`. -/
def backwardTokenOf (i : Int) : String := "b/" ++ format056 i

/-- The forward cursor token `"f/{:056d}".format(i)`. -/
def forwardTokenOf (i : Int) : String := "f/" ++ format056 i

/-- A stored log event (`LogEvent.__init__`): the process-wide `_event_id`
counter is passed in explicitly as `eventId`. -/
structure LogEvent where
  eventId : Nat
  ingestionTime : Int
  timestamp : Int
  message : String
deriving DecidableEq

/-- `LogEvent.to_response_dict`: the response form of an event (no `eventId`). -/
structure ResponseEvent where
  ingestionTime : Int
  message : String
  timestamp : Int
deriving DecidableEq

def LogEvent.to_response_dict (e : LogEvent) : ResponseEvent :=
  { ingestionTime := e.ingestionTime, message := e.message, timestamp := e.timestamp }

/-- `LogEvent.to_filter_dict` together with the `logStreamName` key that
`LogStream.filter_log_events` adds to each dict. -/
structure FilterEvent where
  eventId : String
  ingestionTime : Int
  message : String
  timestamp : Int
  logStreamName : String
deriving DecidableEq

def LogEvent.to_filter_dict (streamName : String) (e : LogEvent) : FilterEvent :=
  { eventId := String.mk (natDigits e.eventId), ingestionTime := e.ingestionTime,
    message := e.message, timestamp := e.timestamp, logStreamName := streamName }

/-- One element of the `log_events` argument of `put_log_events`. -/
structure InputLogEvent where
  timestamp : Int
  message : String
deriving DecidableEq

/-- Timestamp order on stored events; the sort key `lambda event: event.timestamp`. -/
def LogEvent.tsLe (a b : LogEvent) : Prop := a.timestamp ≤ b.timestamp

instance : DecidableRel LogEvent.tsLe := fun a b => Int.decLe a.timestamp b.timestamp

/-- Timestamp order on filter-form events; the sort key `lambda event: event["timestamp"]`. -/
def FilterEvent.tsLe (a b : FilterEvent) : Prop := a.timestamp ≤ b.timestamp

instance : DecidableRel FilterEvent.tsLe := fun a b => Int.decLe a.timestamp b.timestamp

instance : IsTotal FilterEvent FilterEvent.tsLe := ⟨fun a b => Int.le_total a.timestamp b.timestamp⟩

instance : IsTrans FilterEvent FilterEvent.tsLe := ⟨fun _ _ _ h h' => Int.le_trans h h'⟩

/-- `LogStream` state.  The `arn` field and the class-level `_log_ids` counter
only feed the arn string and are not modelled; no claim concerns them. -/
structure LogStream where
  region : String
  logStreamName : String
  creationTime : Int
  firstEventTimestamp : Option Int
  lastEventTimestamp : Option Int
  lastIngestionTime : Option Int
  storedBytes : Nat
  uploadSequenceToken : Nat
  events : List LogEvent
deriving DecidableEq

/-- `LogStream.__init__` (with the clock value passed explicitly). -/
def LogStream.init (region _log_group name : String) (now : Int) : LogStream :=
  { region := region, logStreamName := name, creationTime := now,
    firstEventTimestamp := none, lastEventTimestamp := none, lastIngestionTime := none,
    storedBytes := 0, uploadSequenceToken := 0, events := [] }

/-- The shared `filter_func` of `get_log_events` / `filter_log_events`.  A
bound equal to `0` is falsy in Python (`if start_time and ...`), hence imposes
no constraint; the absent (`None`) bound behaves identically and is merged
into `0`. -/
def filter_func (start_time end_time : Int) (event : LogEvent) : Bool :=
  if start_time ≠ 0 ∧ event.timestamp < start_time then false
  else if end_time ≠ 0 ∧ event.timestamp > end_time then false
  else true

/-- `sorted(filter(filter_func, self.events), key=lambda event: event.timestamp)`.
Python `sorted` is the (unique) stable sort by the key; `List.insertionSort`
with a total preorder is that stable sort. -/
def LogStream.sortedFilteredEvents (s : LogStream) (start_time end_time : Int) : List LogEvent :=
  List.insertionSort LogEvent.tsLe (s.events.filter (filter_func start_time end_time))

/-- Index of the last element of the filtered, sorted view (`final_index`),
`-1` when the view is empty. -/
def LogStream.finalIndex (s : LogStream) (start_time end_time : Int) : Int :=
  ((s.sortedFilteredEvents start_time end_time).length : Int) - 1

/-- `get_index_and_direction_from_token`: `token[0]` and `int(token[2:])`, any
failure (empty token, unparseable suffix) raising `InvalidParameterException`. -/
def get_index_and_direction_from_token (token : Option String) : Except LogsError (Option Char × Int) :=
  match token with
  | none => .ok (none, 0)
  | some t =>
    match t.toList.head?, pyIntOfChars? (t.toList.drop 2) with
    | some c, some i => .ok (some c, i)
    | _, _ => .error (.InvalidParameter ("The specified nextToken is invalid."))

/-- The triple returned by `get_log_events`. -/
structure GetLogEventsResult where
  events : List ResponseEvent
  backwardToken : String
  forwardToken : String
deriving DecidableEq

/-- The final `return` of `get_log_events`: the inclusive window
`events[start_index : end_index + 1]` mapped to response form, with tokens
anchored at the window bounds.  Both indices are non-negative when this is
reached. -/
def slicePage (events : List LogEvent) (start_index end_index : Int) : GetLogEventsResult :=
  { events := ((events.drop start_index.toNat).take (end_index + 1 - start_index).toNat).map LogEvent.to_response_dict,
    backwardToken := backwardTokenOf start_index,
    forwardToken := forwardTokenOf end_index }

/-- The `end_index` clamp of `get_log_events`: clamp to `final_index` from
above, or return the empty page anchored at index 0 when `end_index < 0`. -/
def pageAfterStartClamp (events : List LogEvent) (start_index end_index : Int) : GetLogEventsResult :=
  let final_index : Int := (events.length : Int) - 1
  if end_index > final_index then slicePage events start_index final_index
  else if end_index < 0 then
    { events := [], backwardToken := backwardTokenOf 0, forwardToken := forwardTokenOf 0 }
  else slicePage events start_index end_index

/-- The `start_index` clamp of `get_log_events`: clamp to 0 from below
(`if start_index < 0`), or (`elif`) return the empty page anchored at
`final_index` when `start_index > final_index`. -/
def pageResult (events : List LogEvent) (start_index end_index : Int) : GetLogEventsResult :=
  let final_index : Int := (events.length : Int) - 1
  if start_index < 0 then pageAfterStartClamp events 0 end_index
  else if start_index > final_index then
    { events := [], backwardToken := backwardTokenOf final_index, forwardToken := forwardTokenOf final_index }
  else pageAfterStartClamp events start_index end_index

/-- The `direction` dispatch of `get_log_events` computing the pre-clamp
window `(start_index, end_index)` from the parsed token: no token places the
window at the head or tail, direction `f` starts it at `index + 1`, direction
`b` ends it at `index - 1`, and any other direction raises
`InvalidParameterException`. -/
def computeWindow (direction : Option Char) (index limit final_index : Int) (start_from_head : Bool) : Except LogsError (Int × Int) :=
  let limit_index := limit - 1
  match direction with
  | none =>
    if start_from_head then .ok (0, 0 + limit_index)
    else .ok (final_index - limit_index, final_index)
  | some c =>
    if c = 'f' then .ok (index + 1, index + 1 + limit_index)
    else if c = 'b' then .ok (index - 1 - limit_index, index - 1)
    else .error (.InvalidParameter ("The specified nextToken is invalid."))

/-- `LogStream.get_log_events`: filter by the time range, sort by timestamp,
parse the token, place the window, clamp and slice. -/
def LogStream.get_log_events (s : LogStream) (start_time end_time limit : Int)
    (next_token : Option String) (start_from_head : Bool) : Except LogsError GetLogEventsResult :=
  let events := s.sortedFilteredEvents start_time end_time
  match get_index_and_direction_from_token next_token with
  | .error e => .error e
  | .ok (direction, index) =>
    match computeWindow direction index limit ((events.length : Int) - 1) start_from_head with
    | .error e => .error e
    | .ok (start_index, end_index) => .ok (pageResult events start_index end_index)

/-- The list comprehension of `put_log_events` building one `LogEvent` per
input item, in input order, all sharing the batch ingestion time; the
process-wide `_event_id` counter assigns consecutive ids. -/
def mkEvents (ingestionTime : Int) (nextEventId : Nat) : List InputLogEvent → List LogEvent
  | [] => []
  | e :: rest =>
    { eventId := nextEventId, ingestionTime := ingestionTime,
      timestamp := e.timestamp, message := e.message } :: mkEvents ingestionTime (nextEventId + 1) rest

/-- `LogStream.put_log_events` (with the clock value and the event-id counter
passed explicitly): bumps `lastIngestionTime`, adds the Python `len` of every
message (the code-point count, `String.length`) to `storedBytes`, appends the
new events, increments `uploadSequenceToken` and returns it zero-padded to 56
digits.  Returns the updated stream, the updated event-id counter and the
returned sequence token. -/
def LogStream.put_log_events (s : LogStream) (now : Int) (nextEventId : Nat)
    (log_events : List InputLogEvent) : LogStream × Nat × String :=
  ({ s with
      lastIngestionTime := some now,
      storedBytes := s.storedBytes + (log_events.map (fun e => e.message.length)).sum,
      events := s.events ++ mkEvents now nextEventId log_events,
      uploadSequenceToken := s.uploadSequenceToken + 1 },
   nextEventId + log_events.length,
   format056 ((s.uploadSequenceToken : Int) + 1))

/-- A sequence of `put_log_events` calls: each list entry is one call's clock
value and batch.  Returns the final stream, the final event-id counter and the
list of returned sequence tokens in call order. -/
def runPuts : LogStream → Nat → List (Int × List InputLogEvent) → LogStream × Nat × List String
  | s, nid, [] => (s, nid, [])
  | s, nid, (now, batch) :: rest =>
    let r := s.put_log_events now nid batch
    let r' := runPuts r.1 r.2.1 rest
    (r'.1, r'.2.1, r.2.2 :: r'.2.2)

/-- The per-stream result list of `LogStream.filter_log_events`: time-filtered
events sorted by timestamp, in filter form, tagged with the stream name. -/
def LogStream.filteredSortedFilterEvents (s : LogStream) (start_time end_time : Int) : List FilterEvent :=
  (List.insertionSort LogEvent.tsLe (s.events.filter (filter_func start_time end_time))).map
    (LogEvent.to_filter_dict s.logStreamName)

/-- `LogStream.filter_log_events`: a truthy (non-empty) `filter_pattern`
raises `NotImplementedError` before anything else; otherwise the stream's
time-filtered, timestamp-sorted events are returned in filter form. -/
def LogStream.filter_log_events (s : LogStream) (start_time end_time : Int)
    (filter_pattern : String) : Except LogsError (List FilterEvent) :=
  if filter_pattern ≠ "" then .error (.NotImplemented ("filter_pattern is not yet implemented"))
  else .ok (s.filteredSortedFilterEvents start_time end_time)

/-- One entry of the `searchedLogStreams` part of the group-level
`filter_log_events` result. -/
structure SearchedStream where
  logStreamName : String
  searchedCompletely : Bool
deriving DecidableEq

/-- `LogGroup` state.  `streams` is the `{name: LogStream}` dict in insertion
order (each stream's key is its `logStreamName`); the `arn` string is not
modelled. -/
structure LogGroup where
  name : String
  region : String
  creationTime : Int
  tags : Option (List (String × String))
  retentionInDays : Option Int
  streams : List LogStream
deriving DecidableEq

/-- `LogGroup.__init__` (with the clock value passed explicitly). -/
def LogGroup.init (region name : String) (tags : Option (List (String × String))) (now : Int) : LogGroup :=
  { name := name, region := region, creationTime := now, tags := tags,
    retentionInDays := none, streams := [] }

/-- The stream selection of `LogGroup.filter_log_events`: all streams when
`log_stream_names` is falsy (empty), otherwise the streams whose name is
listed, in stream-iteration order. -/
def LogGroup.selectedStreams (g : LogGroup) (log_stream_names : List String) : List LogStream :=
  g.streams.filter (fun s => log_stream_names.isEmpty || log_stream_names.contains s.logStreamName)

/-- The accumulation loop of `LogGroup.filter_log_events`
(`for stream in streams: events += stream.filter_log_events(...)`): the first
stream call that raises aborts the whole loop. -/
def collectStreamEvents (streams : List LogStream) (start_time end_time : Int)
    (filter_pattern : String) : Except LogsError (List FilterEvent) :=
  match streams with
  | [] => .ok []
  | s :: rest =>
    match s.filter_log_events start_time end_time filter_pattern with
    | .error e => .error e
    | .ok l =>
      match collectStreamEvents rest start_time end_time filter_pattern with
      | .error e => .error e
      | .ok ls => .ok (l ++ ls)

/-- `LogGroup.filter_log_events`: concatenate the selected streams' results,
re-sort by timestamp when `interleaved`, then page with the integer-offset
token (`events[next_token : next_token + limit]`, next token `+ limit`,
collapsed to `none` at or past the end).  The token and limit are the
non-negative integers the dispatch layer supplies. -/
def LogGroup.filter_log_events (g : LogGroup) (log_stream_names : List String)
    (start_time end_time : Int) (limit : Nat) (next_token : Option Nat)
    (filter_pattern : String) (interleaved : Bool) :
    Except LogsError (List FilterEvent × Option Nat × List SearchedStream) :=
  match collectStreamEvents (g.selectedStreams log_stream_names) start_time end_time filter_pattern with
  | .error e => .error e
  | .ok events =>
    let events := if interleaved then List.insertionSort FilterEvent.tsLe events else events
    let tok := match next_token with | none => 0 | some t => t
    let events_page := (events.drop tok).take limit
    let new_token := tok + limit
    let next := if new_token ≥ events.length then none else some new_token
    .ok (events_page, next,
      (g.selectedStreams log_stream_names).map
        (fun s => { logStreamName := s.logStreamName, searchedCompletely := true }))

/-- `LogsBackend` state for one region: the `{logGroupName: LogGroup}` dict in
insertion order (each group's key is its `name`; the metric-filter collaborator
is out of scope). -/
structure LogsBackend where
  region_name : String
  groups : List (String × LogGroup)
deriving DecidableEq

/-- `LogsBackend.create_log_group`: raises `ResourceAlreadyExistsException`
when the name is already a key, otherwise inserts a fresh group. -/
def LogsBackend.create_log_group (b : LogsBackend) (log_group_name : String)
    (tags : Option (List (String × String))) (now : Int) : Except LogsError LogsBackend :=
  if log_group_name ∈ b.groups.map Prod.fst then .error .ResourceAlreadyExists
  else .ok { b with groups := b.groups ++ [(log_group_name, LogGroup.init b.region_name log_group_name tags now)] }

/-- `LogsBackend.delete_log_group`: raises `ResourceNotFoundException` when
the name is not a key, otherwise `del`etes the (unique) binding. -/
def LogsBackend.delete_log_group (b : LogsBackend) (log_group_name : String) : Except LogsError LogsBackend :=
  if log_group_name ∈ b.groups.map Prod.fst then
    .ok { b with groups := b.groups.eraseP (fun p => p.1 == log_group_name) }
  else .error .ResourceNotFound

/-- State-passing form of `LogStream.get_log_events`.  The method body
contains no assignment to any `self` field (every occurrence of `self` is a
read), so its transcription returns the receiver unchanged alongside the
result; a raising call likewise performs no write before the exception
propagates. -/
def LogStream.get_log_events_run (s : LogStream) (start_time end_time limit : Int)
    (next_token : Option String) (start_from_head : Bool) :
    Except LogsError (GetLogEventsResult × LogStream) :=
  match s.get_log_events start_time end_time limit next_token start_from_head with
  | .error e => .error e
  | .ok r => .ok (r, s)

/-- State-passing form of `LogStream.filter_log_events`; no `self` field is
assigned in the method body. -/
def LogStream.filter_log_events_run (s : LogStream) (start_time end_time : Int)
    (filter_pattern : String) : Except LogsError (List FilterEvent × LogStream) :=
  match s.filter_log_events start_time end_time filter_pattern with
  | .error e => .error e
  | .ok l => .ok (l, s)

/-- A concrete stream holding five events with timestamps 10, 20, 30, 40, 50
(the round-trip example of the specification). -/
def sampleStream : LogStream :=
  { region := "us-east-1", logStreamName := "stream", creationTime := 0,
    firstEventTimestamp := none, lastEventTimestamp := none, lastIngestionTime := some 100,
    storedBytes := 10, uploadSequenceToken := 1,
    events :=
      [ { eventId := 0, ingestionTime := 100, timestamp := 10, message := "m0" },
        { eventId := 1, ingestionTime := 100, timestamp := 20, message := "m1" },
        { eventId := 2, ingestionTime := 100, timestamp := 30, message := "m2" },
        { eventId := 3, ingestionTime := 100, timestamp := 40, message := "m3" },
        { eventId := 4, ingestionTime := 100, timestamp := 50, message := "m4" } ] }

/-- A concrete group with no streams. -/
def emptyGroup : LogGroup :=
  { name := "group", region := "us-east-1", creationTime := 0, tags := none,
    retentionInDays := none, streams := [] }

/-- A concrete group with two streams whose timestamps interleave. -/
def sampleGroup : LogGroup :=
  { name := "group", region := "us-east-1", creationTime := 0, tags := none,
    retentionInDays := none,
    streams :=
      [ { region := "us-east-1", logStreamName := "a", creationTime := 0,
          firstEventTimestamp := none, lastEventTimestamp := none, lastIngestionTime := some 100,
          storedBytes := 4, uploadSequenceToken := 1,
          events :=
            [ { eventId := 0, ingestionTime := 100, timestamp := 10, message := "a0" },
              { eventId := 1, ingestionTime := 100, timestamp := 30, message := "a1" } ] },
        { region := "us-east-1", logStreamName := "b", creationTime := 0,
          firstEventTimestamp := none, lastEventTimestamp := none, lastIngestionTime := some 100,
          storedBytes := 4, uploadSequenceToken := 1,
          events :=
            [ { eventId := 2, ingestionTime := 100, timestamp := 20, message := "b0" },
              { eventId := 3, ingestionTime := 100, timestamp := 40, message := "b1" } ] } ] }

/-- A concrete empty registry. -/
def emptyBackend : LogsBackend := { region_name := "us-east-1", groups := [] }

/-- The interleaved result of `filter_log_events` on `sampleGroup`: all four
events of its two streams merged in ascending timestamp order. -/
def sampleInterleavedPage : List FilterEvent :=
  [ { eventId := "0", ingestionTime := 100, message := "a0", timestamp := 10, logStreamName := "a" },
    { eventId := "2", ingestionTime := 100, message := "b0", timestamp := 20, logStreamName := "b" },
    { eventId := "1", ingestionTime := 100, message := "a1", timestamp := 30, logStreamName := "a" },
    { eventId := "3", ingestionTime := 100, message := "b1", timestamp := 40, logStreamName := "b" } ]

/-- The first page returned by `get_log_events` on `sampleStream` with
`limit = 2`, `start_from_head = true` and no token. -/
def samplePage1 : GetLogEventsResult :=
  { events := [{ ingestionTime := 100, message := "m0", timestamp := 10 },
               { ingestionTime := 100, message := "m1", timestamp := 20 }],
    backwardToken := backwardTokenOf 0, forwardToken := forwardTokenOf 1 }

lemma digitsToNat_append_last (cs : List Char) (c : Char) :
    digitsToNat (cs ++ [c]) = 10 * digitsToNat cs + (c.toNat - 48) := by
  simp [digitsToNat, List.foldl_append]

lemma digitsToNat_zeroPad (w : Nat) (ds : List Char) :
    digitsToNat (zeroPad w ds) = digitsToNat ds := by
  have h : ∀ k, List.foldl (fun a c => 10 * a + (c.toNat - 48)) 0 (List.replicate k '0') = 0 := by
    intro k
    induction k with
    | zero => rfl
    | succ k ih => simpa [List.replicate_succ] using ih
  simp [zeroPad, digitsToNat, List.foldl_append, h]

lemma natToDigitsAux_all_digits : ∀ fuel n, (natToDigitsAux fuel n).all Char.isDigit = true := by
  intro fuel
  induction fuel with
  | zero => intro n; rfl
  | succ fuel ih =>
    intro n
    by_cases h : n < 10
    · have : (digitChar n).isDigit = true := by interval_cases n <;> decide
      simp [natToDigitsAux, h, this]
    · have hm : n % 10 < 10 := Nat.mod_lt _ (by norm_num)
      have hd : (digitChar (n % 10)).isDigit = true := by
        set m := n % 10 with hmdef
        clear_value m
        interval_cases m <;> decide
      simp [natToDigitsAux, h, List.all_append, ih, hd]

lemma natToDigitsAux_ne_nil : ∀ fuel n, 0 < fuel → natToDigitsAux fuel n ≠ [] := by
  intro fuel n h
  match fuel, h with
  | fuel + 1, _ =>
    by_cases h10 : n < 10 <;> simp [natToDigitsAux, h10]

lemma digitsToNat_natToDigitsAux : ∀ fuel n, n < fuel → digitsToNat (natToDigitsAux fuel n) = n := by
  intro fuel
  induction fuel with
  | zero => omega
  | succ fuel ih =>
    intro n hn
    by_cases h : n < 10
    · have : digitsToNat [digitChar n] = n := by interval_cases n <;> decide
      simpa [natToDigitsAux, h] using this
    · have hdiv : n / 10 < fuel := by
        have h1 : n / 10 < n := Nat.div_lt_self (by omega) (by norm_num)
        omega
      have hm : n % 10 < 10 := Nat.mod_lt _ (by norm_num)
      have hdig : (digitChar (n % 10)).toNat - 48 = n % 10 := by
        set m := n % 10 with hmdef
        clear_value m
        interval_cases m <;> decide
      rw [natToDigitsAux, if_neg h, digitsToNat_append_last, ih _ hdiv, hdig]
      omega

lemma digitsToNat_natDigits (n : Nat) : digitsToNat (natDigits n) = n :=
  digitsToNat_natToDigitsAux (n + 1) n (Nat.lt_succ_self n)

lemma natToDigitsAux_length_le : ∀ fuel n k, n < fuel → n < 10 ^ (k + 1) →
    (natToDigitsAux fuel n).length ≤ k + 1 := by
  intro fuel
  induction fuel with
  | zero => omega
  | succ fuel ih =>
    intro n k hn hk
    by_cases h : n < 10
    · simp [natToDigitsAux, h]
    · match k with
      | 0 => simp at hk; omega
      | k + 1 =>
        have hdiv : n / 10 < fuel := by
          have h1 : n / 10 < n := Nat.div_lt_self (by omega) (by norm_num)
          omega
        have hk' : n / 10 < 10 ^ (k + 1) := by
          rw [Nat.div_lt_iff_lt_mul (by norm_num : 0 < 10)]
          calc n < 10 ^ (k + 1 + 1) := hk
          _ = 10 ^ (k + 1) * 10 := by ring
        have := ih (n / 10) k hdiv hk'
        simp only [natToDigitsAux, if_neg h, List.length_append, List.length_cons,
          List.length_nil]
        omega

lemma natDigits_length_le (n k : Nat) (h : n < 10 ^ (k + 1)) : (natDigits n).length ≤ k + 1 :=
  natToDigitsAux_length_le (n + 1) n k (Nat.lt_succ_self n) h

lemma isDigit_toNat_bounds {c : Char} (h : c.isDigit = true) : 48 ≤ c.toNat ∧ c.toNat ≤ 57 := by
  simp [Char.isDigit] at h
  exact h

lemma not_sign_of_isDigit {c : Char} (h : c.isDigit = true) :
    c ≠ '-' ∧ c ≠ '+' ∧ c ≠ ' ' := by
  refine ⟨?_, ?_, ?_⟩ <;> rintro rfl <;> simp [Char.isDigit] at h

lemma pyUnicodeDecimal?_digit {c : Char} (h : c.isDigit = true) :
    pyUnicodeDecimal? c = some (c.toNat - 48) := by
  obtain ⟨h1, h2⟩ := isDigit_toNat_bounds h
  have hp : (decide ((48 : Nat) ≤ c.toNat) && decide (c.toNat ≤ 48 + 9)) = true := by
    simp
    omega
  have hfind : pyDigitZeros.find? (fun z => z ≤ c.toNat && c.toNat ≤ z + 9) = some 48 := by
    rw [pyDigitZeros, List.find?_cons, hp]
  simp [pyUnicodeDecimal?, hfind]

lemma pyTransformChar_digit {c : Char} (h : c.isDigit = true) : pyTransformChar c = c := by
  obtain ⟨h1, _⟩ := isDigit_toNat_bounds h
  simp only [pyTransformChar, pyUnicodeDecimal?_digit h, digitChar]
  have harg : 48 + (c.toNat - 48) = c.toNat := by omega
  rw [harg, Char.ofNat_toNat]

lemma map_pyTransformChar_of_digits {cs : List Char} (h : cs.all Char.isDigit = true) :
    cs.map pyTransformChar = cs := by
  induction cs with
  | nil => rfl
  | cons c rest ih =>
    rw [List.all_cons, Bool.and_eq_true] at h
    simp [pyTransformChar_digit h.1, ih h.2]

lemma pyIntTail?_digits {ds : List Char} (h : ds.all Char.isDigit = true) :
    pyIntTail? ds = some ds := by
  induction ds with
  | nil => rfl
  | cons c rest ih =>
    rw [List.all_cons, Bool.and_eq_true] at h
    rw [pyIntTail?.eq_def]
    simp [h.1, ih h.2]

lemma pyIntOfChars?_digits {cs : List Char} (hne : cs ≠ [])
    (hdig : cs.all Char.isDigit = true) : pyIntOfChars? cs = some ((digitsToNat cs : Nat) : Int) := by
  match cs, hne with
  | c :: rest, _ =>
    have hall := hdig
    rw [List.all_cons, Bool.and_eq_true] at hall
    obtain ⟨hm, hp, hsp⟩ := not_sign_of_isDigit hall.1
    simp [pyIntOfChars?, map_pyTransformChar_of_digits hdig, List.dropWhile_cons,
      hsp, hm, hp, hall.1, pyIntTail?_digits hall.2]

lemma natDigits_all_digits (n : Nat) : (natDigits n).all Char.isDigit = true :=
  natToDigitsAux_all_digits _ _

lemma natDigits_ne_nil (n : Nat) : natDigits n ≠ [] :=
  natToDigitsAux_ne_nil _ _ (Nat.succ_pos n)

lemma zeroPad_ne_nil (w : Nat) {ds : List Char} (h : ds ≠ []) : zeroPad w ds ≠ [] := by
  simp [zeroPad, h]

lemma zeroPad_all_digits (w : Nat) {ds : List Char} (h : ds.all Char.isDigit = true) :
    (zeroPad w ds).all Char.isDigit = true := by
  have h1 : (List.replicate (w - ds.length) '0').all Char.isDigit = true := by
    simp only [List.all_eq_true]
    intro c hc
    rw [List.eq_of_mem_replicate hc]
    decide
  simp [zeroPad, List.all_append, h1, h]

lemma pyInt_format056 (i : Int) : pyIntOfChars? (format056 i).toList = some i := by
  by_cases h : i < 0
  · have hne := zeroPad_ne_nil 55 (natDigits_ne_nil i.natAbs)
    have hdig := zeroPad_all_digits 55 (natDigits_all_digits i.natAbs)
    have hl : (format056 i).toList = '-' :: zeroPad 55 (natDigits i.natAbs) := by
      simp [format056, h, String.toList]
    rw [hl]
    rcases hzp : zeroPad 55 (natDigits i.natAbs) with _ | ⟨d, rest2⟩
    · exact absurd hzp hne
    · rw [hzp] at hdig
      have hd : d.isDigit = true := by
        rw [List.all_cons, Bool.and_eq_true] at hdig
        exact hdig.1
      have hrest : rest2.all Char.isDigit = true := by
        rw [List.all_cons, Bool.and_eq_true] at hdig
        exact hdig.2
      have hminus : pyTransformChar '-' = '-' := by decide
      have hval : digitsToNat (d :: rest2) = i.natAbs := by
        rw [← hzp, digitsToNat_zeroPad, digitsToNat_natDigits]
      simp [pyIntOfChars?, List.map_cons, hminus, map_pyTransformChar_of_digits hdig,
        List.dropWhile_cons, hd, pyIntTail?_digits hrest]
      rw [hval]
      omega
  · have hne := zeroPad_ne_nil 56 (natDigits_ne_nil i.toNat)
    have hdig := zeroPad_all_digits 56 (natDigits_all_digits i.toNat)
    have hl : (format056 i).toList = zeroPad 56 (natDigits i.toNat) := by
      simp [format056, h, String.toList]
    rw [hl, pyIntOfChars?_digits hne hdig, digitsToNat_zeroPad, digitsToNat_natDigits]
    congr 1
    omega

lemma toList_forwardTokenOf (i : Int) :
    (forwardTokenOf i).toList = 'f' :: '/' :: (format056 i).toList := rfl

lemma toList_backwardTokenOf (i : Int) :
    (backwardTokenOf i).toList = 'b' :: '/' :: (format056 i).toList := rfl

lemma get_index_forwardTokenOf (i : Int) :
    get_index_and_direction_from_token (some (forwardTokenOf i)) = .ok (some 'f', i) := by
  have h1 : (forwardTokenOf i).toList.head? = some 'f' := by
    rw [toList_forwardTokenOf]
    rfl
  have h2 : (forwardTokenOf i).toList.drop 2 = (format056 i).toList := by
    rw [toList_forwardTokenOf]
    rfl
  simp only [get_index_and_direction_from_token, h1, h2, pyInt_format056]

lemma get_index_backwardTokenOf (i : Int) :
    get_index_and_direction_from_token (some (backwardTokenOf i)) = .ok (some 'b', i) := by
  have h1 : (backwardTokenOf i).toList.head? = some 'b' := by
    rw [toList_backwardTokenOf]
    rfl
  have h2 : (backwardTokenOf i).toList.drop 2 = (format056 i).toList := by
    rw [toList_backwardTokenOf]
    rfl
  simp only [get_index_and_direction_from_token, h1, h2, pyInt_format056]

lemma computeWindow_none_head (index limit final_index : Int) :
    computeWindow none index limit final_index true = .ok (0, limit - 1) := by
  simp [computeWindow]

lemma computeWindow_none_tail (index limit final_index : Int) :
    computeWindow none index limit final_index false = .ok (final_index - (limit - 1), final_index) := by
  simp [computeWindow]

lemma computeWindow_f (index limit final_index : Int) (head : Bool) :
    computeWindow (some 'f') index limit final_index head = .ok (index + 1, index + limit) := by
  simp [computeWindow]

lemma computeWindow_b (index limit final_index : Int) (head : Bool) :
    computeWindow (some 'b') index limit final_index head = .ok (index - limit, index - 1) := by
  simp [computeWindow]

lemma slicePage_events (events : List LogEvent) (a b : Int) :
    (slicePage events a b).events =
      ((events.drop a.toNat).take (b + 1 - a).toNat).map LogEvent.to_response_dict := rfl

lemma slicePage_backwardToken (events : List LogEvent) (a b : Int) :
    (slicePage events a b).backwardToken = backwardTokenOf a := rfl

lemma slicePage_forwardToken (events : List LogEvent) (a b : Int) :
    (slicePage events a b).forwardToken = forwardTokenOf b := rfl

lemma pageAfterStartClamp_over (events : List LogEvent) (s0 e0 : Int)
    (h : e0 > (events.length : Int) - 1) :
    pageAfterStartClamp events s0 e0 = slicePage events s0 ((events.length : Int) - 1) := by
  simp only [pageAfterStartClamp, if_pos h]

lemma pageAfterStartClamp_under (events : List LogEvent) (s0 e0 : Int)
    (h1 : ¬ e0 > (events.length : Int) - 1) (h2 : e0 < 0) :
    pageAfterStartClamp events s0 e0 =
      { events := [], backwardToken := backwardTokenOf 0, forwardToken := forwardTokenOf 0 } := by
  simp only [pageAfterStartClamp, if_neg h1, if_pos h2]

lemma pageAfterStartClamp_mid (events : List LogEvent) (s0 e0 : Int)
    (h1 : ¬ e0 > (events.length : Int) - 1) (h2 : ¬ e0 < 0) :
    pageAfterStartClamp events s0 e0 = slicePage events s0 e0 := by
  simp only [pageAfterStartClamp, if_neg h1, if_neg h2]

lemma pageResult_clamp0 (events : List LogEvent) (s0 e0 : Int) (h : s0 < 0) :
    pageResult events s0 e0 = pageAfterStartClamp events 0 e0 := by
  simp only [pageResult, if_pos h]

lemma pageResult_start_over (events : List LogEvent) (s0 e0 : Int)
    (h : s0 > (events.length : Int) - 1) :
    pageResult events s0 e0 =
      { events := [], backwardToken := backwardTokenOf ((events.length : Int) - 1),
        forwardToken := forwardTokenOf ((events.length : Int) - 1) } := by
  have h0 : ¬ s0 < 0 := by omega
  simp only [pageResult, if_neg h0, if_pos h]

lemma pageResult_mid (events : List LogEvent) (s0 e0 : Int)
    (h0 : ¬ s0 < 0) (h : ¬ s0 > (events.length : Int) - 1) :
    pageResult events s0 e0 = pageAfterStartClamp events s0 e0 := by
  simp only [pageResult, if_neg h0, if_neg h]

lemma pageResult_end_under (events : List LogEvent) (s0 e0 : Int)
    (hs : s0 ≤ e0) (he : e0 < 0) :
    pageResult events s0 e0 =
      { events := [], backwardToken := backwardTokenOf 0, forwardToken := forwardTokenOf 0 } := by
  have hs0 : s0 < 0 := by omega
  have hf : ¬ e0 > (events.length : Int) - 1 := by omega
  rw [pageResult_clamp0 events s0 e0 hs0, pageAfterStartClamp_under events 0 e0 hf he]

lemma pageResult_head (events : List LogEvent) (limit : Int) (h : 1 ≤ limit) :
    (pageResult events 0 (limit - 1)).events =
      (events.take limit.toNat).map LogEvent.to_response_dict := by
  by_cases hemp : (0 : Int) > (events.length : Int) - 1
  · have : events = [] := List.length_eq_zero.mp (by omega)
    subst this
    rw [pageResult_start_over _ _ _ hemp]
    simp
  · have h0 : ¬ (0 : Int) < 0 := by omega
    rw [pageResult_mid events _ _ h0 hemp]
    by_cases hover : limit - 1 > (events.length : Int) - 1
    · rw [pageAfterStartClamp_over _ _ _ hover, slicePage_events]
      have hlen : events.length ≤ limit.toNat := by omega
      have harg : ((events.length : Int) - 1 + 1 - 0).toNat = events.length := by omega
      rw [harg, Int.toNat_zero, List.drop_zero, List.take_of_length_le hlen,
        List.take_of_length_le (le_refl events.length)]
    · have hneg : ¬ limit - 1 < 0 := by omega
      rw [pageAfterStartClamp_mid _ _ _ hover hneg, slicePage_events]
      have harg : (limit - 1 + 1 - 0).toNat = limit.toNat := by omega
      rw [harg, Int.toNat_zero, List.drop_zero]

lemma pageResult_tail (events : List LogEvent) (limit : Int) (h : 1 ≤ limit) :
    (pageResult events ((events.length : Int) - limit) ((events.length : Int) - 1)).events =
      (events.drop ((events.length : Int) - limit).toNat).map LogEvent.to_response_dict := by
  by_cases hs : (events.length : Int) - limit < 0
  · have htz : ((events.length : Int) - limit).toNat = 0 := by omega
    rw [pageResult_clamp0 _ _ _ hs, htz, List.drop_zero]
    by_cases hemp : (events.length : Int) - 1 < 0
    · have : events = [] := List.length_eq_zero.mp (by omega)
      subst this
      rw [pageAfterStartClamp_under _ _ _ (by simp) (by simp)]
      simp
    · have hf : ¬ ((events.length : Int) - 1 > (events.length : Int) - 1) := by omega
      rw [pageAfterStartClamp_mid _ _ _ hf hemp, slicePage_events]
      have hlen : events.length ≤ ((events.length : Int) - 1 + 1 - 0).toNat := by omega
      rw [Int.toNat_zero, List.drop_zero, List.take_of_length_le hlen]
  · have hover : ¬ ((events.length : Int) - limit > (events.length : Int) - 1) := by omega
    have hf : ¬ ((events.length : Int) - 1 > (events.length : Int) - 1) := by omega
    have hemp : ¬ ((events.length : Int) - 1 < 0) := by omega
    rw [pageResult_mid _ _ _ (by omega) hover, pageAfterStartClamp_mid _ _ _ hf hemp,
      slicePage_events]
    have hlen : (events.drop ((events.length : Int) - limit).toNat).length ≤
        ((events.length : Int) - 1 + 1 - ((events.length : Int) - limit)).toNat := by
      rw [List.length_drop]
      omega
    rw [List.take_of_length_le hlen]

lemma pageResult_tokens (events : List LogEvent) (s0 e0 : Int) :
    ∃ i j : Int,
      (pageResult events s0 e0).backwardToken = backwardTokenOf i ∧
      (pageResult events s0 e0).forwardToken = forwardTokenOf j ∧
      ((pageResult events s0 e0).events ≠ [] →
        0 ≤ i ∧ i ≤ j ∧ j < (events.length : Int) ∧
        (pageResult events s0 e0).events =
          ((events.drop i.toNat).take (j + 1 - i).toNat).map LogEvent.to_response_dict) := by
  have hslice : ∀ a b : Int, 0 ≤ a → ¬ b > (events.length : Int) - 1 →
      pageResult events s0 e0 = slicePage events a b →
      ∃ i j : Int,
        (pageResult events s0 e0).backwardToken = backwardTokenOf i ∧
        (pageResult events s0 e0).forwardToken = forwardTokenOf j ∧
        ((pageResult events s0 e0).events ≠ [] →
          0 ≤ i ∧ i ≤ j ∧ j < (events.length : Int) ∧
          (pageResult events s0 e0).events =
            ((events.drop i.toNat).take (j + 1 - i).toNat).map LogEvent.to_response_dict) := by
    intro a b ha hb heq
    refine ⟨a, b, ?_, ?_, fun hne => ⟨ha, ?_, ?_, ?_⟩⟩
    · rw [heq, slicePage_backwardToken]
    · rw [heq, slicePage_forwardToken]
    · rw [heq, slicePage_events] at hne
      by_contra hab
      have : (b + 1 - a).toNat = 0 := by omega
      simp [this] at hne
    · rw [heq, slicePage_events] at hne
      by_contra hblen
      have hdroplen : (events.drop a.toNat).length = 0 := by
        rw [List.length_drop]
        omega
      rcases List.length_eq_zero.mp hdroplen with hd
      simp [hd] at hne
    · rw [heq, slicePage_events]
  by_cases hs0 : s0 < 0
  · by_cases hover : e0 > (events.length : Int) - 1
    · exact hslice 0 ((events.length : Int) - 1) (le_refl 0) (by omega)
        (by rw [pageResult_clamp0 _ _ _ hs0, pageAfterStartClamp_over _ _ _ hover])
    · by_cases hneg : e0 < 0
      · refine ⟨0, 0, ?_⟩
        rw [pageResult_clamp0 _ _ _ hs0, pageAfterStartClamp_under _ _ _ hover hneg]
        exact ⟨rfl, rfl, fun hne => absurd rfl hne⟩
      · exact hslice 0 e0 (le_refl 0) hover
          (by rw [pageResult_clamp0 _ _ _ hs0, pageAfterStartClamp_mid _ _ _ hover hneg])
  · by_cases hsover : s0 > (events.length : Int) - 1
    · refine ⟨(events.length : Int) - 1, (events.length : Int) - 1, ?_⟩
      rw [pageResult_start_over _ _ _ hsover]
      exact ⟨rfl, rfl, fun hne => absurd rfl hne⟩
    · by_cases hover : e0 > (events.length : Int) - 1
      · exact hslice s0 ((events.length : Int) - 1) (by omega) (by omega)
          (by rw [pageResult_mid _ _ _ hs0 hsover, pageAfterStartClamp_over _ _ _ hover])
      · by_cases hneg : e0 < 0
        · refine ⟨0, 0, ?_⟩
          rw [pageResult_mid _ _ _ hs0 hsover, pageAfterStartClamp_under _ _ _ hover hneg]
          exact ⟨rfl, rfl, fun hne => absurd rfl hne⟩
        · exact hslice s0 e0 (by omega) hover
            (by rw [pageResult_mid _ _ _ hs0 hsover, pageAfterStartClamp_mid _ _ _ hover hneg])

lemma get_log_events_eq_pageResult (s : LogStream) (start_time end_time limit : Int)
    (next_token : Option String) (head : Bool) (d : Option Char) (i s0 e0 : Int)
    (hparse : get_index_and_direction_from_token next_token = .ok (d, i))
    (hwin : computeWindow d i limit (((s.sortedFilteredEvents start_time end_time).length : Int) - 1) head = .ok (s0, e0)) :
    s.get_log_events start_time end_time limit next_token head =
      .ok (pageResult (s.sortedFilteredEvents start_time end_time) s0 e0) := by
  simp [LogStream.get_log_events, hparse, hwin]

/-- Claim C3: `get_log_events` raises `InvalidParameter` with message
"The specified nextToken is invalid." exactly when the supplied token's
direction character is neither `f` nor `b` (including the empty token), or the
suffix after the first two characters does not parse as an integer; with
direction `f` the pre-clamp window starts at `index + 1`, and with direction
`b` it ends at `index - 1`. -/
theorem C3_invalid_token (s : LogStream) (start_time end_time limit : Int) (t : String) (head : Bool) :
    (s.get_log_events start_time end_time limit (some t) head =
        .error (.InvalidParameter ("The specified nextToken is invalid."))
      ↔ ((t.toList.head? ≠ some 'f' ∧ t.toList.head? ≠ some 'b')
          ∨ pyIntOfChars? (t.toList.drop 2) = none))
    ∧ (∀ index final_index : Int,
        computeWindow (some 'f') index limit final_index head = .ok (index + 1, index + limit))
    ∧ (∀ index final_index : Int,
        computeWindow (some 'b') index limit final_index head = .ok (index - limit, index - 1)) := by
  refine ⟨?_, fun index final_index => computeWindow_f index limit final_index head,
    fun index final_index => computeWindow_b index limit final_index head⟩
  rcases hh : t.toList.head? with _ | c <;>
    rcases hp : pyIntOfChars? (t.toList.drop 2) with _ | i <;>
    simp only [String.toList] at hh hp
  · have hget : s.get_log_events start_time end_time limit (some t) head =
        .error (.InvalidParameter ("The specified nextToken is invalid.")) := by
      simp [LogStream.get_log_events, get_index_and_direction_from_token, hh, hp]
    simp [hget]
  · have hget : s.get_log_events start_time end_time limit (some t) head =
        .error (.InvalidParameter ("The specified nextToken is invalid.")) := by
      simp [LogStream.get_log_events, get_index_and_direction_from_token, hh, hp]
    simp [hget]
  · have hget : s.get_log_events start_time end_time limit (some t) head =
        .error (.InvalidParameter ("The specified nextToken is invalid.")) := by
      simp [LogStream.get_log_events, get_index_and_direction_from_token, hh, hp]
    simp [hget, hp]
  · by_cases hcf : c = 'f'
    · subst hcf
      have hget : s.get_log_events start_time end_time limit (some t) head =
          .ok (pageResult (s.sortedFilteredEvents start_time end_time) (i + 1) (i + limit)) := by
        simp [LogStream.get_log_events, get_index_and_direction_from_token, hh, hp, computeWindow_f]
      simp [hget, hh, hp]
    · by_cases hcb : c = 'b'
      · subst hcb
        have hget : s.get_log_events start_time end_time limit (some t) head =
            .ok (pageResult (s.sortedFilteredEvents start_time end_time) (i - limit) (i - 1)) := by
          simp [LogStream.get_log_events, get_index_and_direction_from_token, hh, hp, computeWindow_b]
        simp [hget, hh, hp]
      · have hget : s.get_log_events start_time end_time limit (some t) head =
            .error (.InvalidParameter ("The specified nextToken is invalid.")) := by
          simp [LogStream.get_log_events, get_index_and_direction_from_token, hh, hp,
            computeWindow, hcf, hcb]
        simp [hget, hh, hp, hcf, hcb]

/-- Witness for C3 at a concrete token: `"q/5"` has direction character `q`,
so the concrete call raises `InvalidParameter`. -/
theorem C3_witness :
    sampleStream.get_log_events 0 0 2 (some ("q/5")) true =
      .error (.InvalidParameter ("The specified nextToken is invalid.")) :=
  (C3_invalid_token sampleStream 0 0 2 ("q/5") true).1.mpr (Or.inl (by decide))

/-- Claim C1: with no token, `get_log_events` selects a window of length
`limit` over the time-filtered, timestamp-ascending-sorted events — from the
head when `start_from_head`, ending at `final_index` otherwise; a forward
token `f/<i>` restarts the window at `i + 1`; and the concrete round trip over
timestamps 10..50 with `limit = 2` pages `[10,20]`, `[30,40]`, `[50]`, then an
end-of-range empty page. -/
theorem C1_no_token_window (s : LogStream) (start_time end_time limit : Int) (h : 1 ≤ limit) :
    ((s.get_log_events start_time end_time limit none true).map GetLogEventsResult.events =
      .ok (((s.sortedFilteredEvents start_time end_time).take limit.toNat).map
        LogEvent.to_response_dict))
    ∧ ((s.get_log_events start_time end_time limit none false).map GetLogEventsResult.events =
      .ok (((s.sortedFilteredEvents start_time end_time).drop
        (((s.sortedFilteredEvents start_time end_time).length : Int) - limit).toNat).map
          LogEvent.to_response_dict))
    ∧ (∀ (i : Int) (head : Bool),
        s.get_log_events start_time end_time limit (some (forwardTokenOf i)) head =
          .ok (pageResult (s.sortedFilteredEvents start_time end_time) (i + 1) (i + limit)))
    ∧ (sampleStream.get_log_events 0 0 2 none true =
        .ok { events := [{ ingestionTime := 100, message := "m0", timestamp := 10 },
                         { ingestionTime := 100, message := "m1", timestamp := 20 }],
              backwardToken := backwardTokenOf 0, forwardToken := forwardTokenOf 1 })
    ∧ (sampleStream.get_log_events 0 0 2 (some (forwardTokenOf 1)) true =
        .ok { events := [{ ingestionTime := 100, message := "m2", timestamp := 30 },
                         { ingestionTime := 100, message := "m3", timestamp := 40 }],
              backwardToken := backwardTokenOf 2, forwardToken := forwardTokenOf 3 })
    ∧ (sampleStream.get_log_events 0 0 2 (some (forwardTokenOf 3)) true =
        .ok { events := [{ ingestionTime := 100, message := "m4", timestamp := 50 }],
              backwardToken := backwardTokenOf 4, forwardToken := forwardTokenOf 4 })
    ∧ (sampleStream.get_log_events 0 0 2 (some (forwardTokenOf 4)) true =
        .ok { events := [], backwardToken := backwardTokenOf 4, forwardToken := forwardTokenOf 4 }) := by
  refine ⟨?_, ?_, ?_, by decide, by decide, by decide, by decide⟩
  · have hget := get_log_events_eq_pageResult s start_time end_time limit none true none 0
      0 (limit - 1) rfl
      (computeWindow_none_head 0 limit (((s.sortedFilteredEvents start_time end_time).length : Int) - 1))
    rw [hget]
    simp only [Except.map]
    rw [pageResult_head _ _ h]
  · have hwin := computeWindow_none_tail 0 limit
      (((s.sortedFilteredEvents start_time end_time).length : Int) - 1)
    have heq : (((s.sortedFilteredEvents start_time end_time).length : Int) - 1) - (limit - 1) =
        ((s.sortedFilteredEvents start_time end_time).length : Int) - limit := by ring
    rw [heq] at hwin
    have hget := get_log_events_eq_pageResult s start_time end_time limit none false none 0
      (((s.sortedFilteredEvents start_time end_time).length : Int) - limit)
      (((s.sortedFilteredEvents start_time end_time).length : Int) - 1) rfl hwin
    rw [hget]
    simp only [Except.map]
    rw [pageResult_tail _ _ h]
  · intro i head
    exact get_log_events_eq_pageResult s start_time end_time limit (some (forwardTokenOf i)) head
      (some 'f') i (i + 1) (i + limit) (get_index_forwardTokenOf i)
      (computeWindow_f i limit (((s.sortedFilteredEvents start_time end_time).length : Int) - 1) head)

/-- Witness for C1 at the concrete sample stream with `limit = 2`. -/
theorem C1_witness :
    (1 : Int) ≤ 2 ∧
      (sampleStream.get_log_events 0 0 2 none true).map GetLogEventsResult.events =
        .ok (((sampleStream.sortedFilteredEvents 0 0).take (2 : Int).toNat).map
          LogEvent.to_response_dict) :=
  ⟨by norm_num, (C1_no_token_window sampleStream 0 0 2 (by norm_num)).1⟩

/-- Claim C2: when the pre-clamp start index exceeds `final_index`,
`get_log_events` returns an empty page with both tokens anchored at
`final_index`, and repeating the call with the returned forward token returns
the same empty page; when the pre-clamp end index is below 0, it returns an
empty page with both tokens anchored at 0, and repeating the call with the
returned backward token returns the same empty page. -/
theorem C2_boundary_empty_pages (s : LogStream) (start_time end_time limit : Int) (tok : String)
    (head : Bool) (d : Option Char) (i s0 e0 : Int) (hlim : 1 ≤ limit)
    (hparse : get_index_and_direction_from_token (some tok) = .ok (d, i))
    (hwin : computeWindow d i limit (s.finalIndex start_time end_time) head = .ok (s0, e0)) :
    (s0 > s.finalIndex start_time end_time →
      s.get_log_events start_time end_time limit (some tok) head =
        .ok { events := [], backwardToken := backwardTokenOf (s.finalIndex start_time end_time),
              forwardToken := forwardTokenOf (s.finalIndex start_time end_time) }
      ∧ s.get_log_events start_time end_time limit
          (some (forwardTokenOf (s.finalIndex start_time end_time))) head =
        .ok { events := [], backwardToken := backwardTokenOf (s.finalIndex start_time end_time),
              forwardToken := forwardTokenOf (s.finalIndex start_time end_time) })
    ∧ (e0 < 0 →
      s.get_log_events start_time end_time limit (some tok) head =
        .ok { events := [], backwardToken := backwardTokenOf 0, forwardToken := forwardTokenOf 0 }
      ∧ s.get_log_events start_time end_time limit (some (backwardTokenOf 0)) head =
        .ok { events := [], backwardToken := backwardTokenOf 0, forwardToken := forwardTokenOf 0 }) := by
  simp only [LogStream.finalIndex] at hwin ⊢
  have hlen0 : (0 : Int) ≤ ((s.sortedFilteredEvents start_time end_time).length : Int) := by
    exact_mod_cast Nat.zero_le _
  constructor
  · intro hso
    constructor
    · rw [get_log_events_eq_pageResult s start_time end_time limit (some tok) head d i s0 e0
        hparse hwin, pageResult_start_over _ _ _ hso]
    · have hwin2 := computeWindow_f
        (((s.sortedFilteredEvents start_time end_time).length : Int) - 1) limit
        (((s.sortedFilteredEvents start_time end_time).length : Int) - 1) head
      rw [get_log_events_eq_pageResult s start_time end_time limit
          (some (forwardTokenOf (((s.sortedFilteredEvents start_time end_time).length : Int) - 1)))
          head (some 'f') (((s.sortedFilteredEvents start_time end_time).length : Int) - 1)
          (((s.sortedFilteredEvents start_time end_time).length : Int) - 1 + 1)
          (((s.sortedFilteredEvents start_time end_time).length : Int) - 1 + limit)
          (get_index_forwardTokenOf _) hwin2,
        pageResult_start_over _ _ _ (by omega)]
  · intro he0
    have hle : s0 ≤ e0 := by
      rcases d with _ | c
      · cases head
        · rw [computeWindow_none_tail] at hwin
          simp only [Except.ok.injEq, Prod.mk.injEq] at hwin
          omega
        · rw [computeWindow_none_head] at hwin
          simp only [Except.ok.injEq, Prod.mk.injEq] at hwin
          omega
      · by_cases hcf : c = 'f'
        · subst hcf
          rw [computeWindow_f] at hwin
          simp only [Except.ok.injEq, Prod.mk.injEq] at hwin
          omega
        · by_cases hcb : c = 'b'
          · subst hcb
            rw [computeWindow_b] at hwin
            simp only [Except.ok.injEq, Prod.mk.injEq] at hwin
            omega
          · simp [computeWindow, hcf, hcb] at hwin
    constructor
    · rw [get_log_events_eq_pageResult s start_time end_time limit (some tok) head d i s0 e0
        hparse hwin, pageResult_end_under _ _ _ hle he0]
    · have hwin2 := computeWindow_b 0 limit
        (((s.sortedFilteredEvents start_time end_time).length : Int) - 1) head
      rw [get_log_events_eq_pageResult s start_time end_time limit (some (backwardTokenOf 0))
          head (some 'b') 0 (0 - limit) (0 - 1) (get_index_backwardTokenOf 0) hwin2,
        pageResult_end_under _ _ _ (by omega) (by omega)]

/-- Witness for C2: on the sample stream the token `f/<7>` has pre-clamp start
index 8, past `final_index = 4`, so the call returns the empty page anchored at
index 4. -/
theorem C2_witness :
    sampleStream.get_log_events 0 0 2 (some (forwardTokenOf 7)) true =
      .ok { events := [], backwardToken := backwardTokenOf (sampleStream.finalIndex 0 0),
            forwardToken := forwardTokenOf (sampleStream.finalIndex 0 0) } :=
  ((C2_boundary_empty_pages sampleStream 0 0 2 (forwardTokenOf 7) true (some 'f') 7 8 9
      (by norm_num) (get_index_forwardTokenOf 7) (by decide)).1 (by decide)).1

/-- Counterexample to C4 as stated: the forward token produced by the first
sample page is `"f/" ++ <56 digits>` — a direction character, ONE spacer
character and 56 digits, so its length is 58, not the 59 (= 1 + 2 + 56) that
the claimed format "direction, 2 spacer characters, 56-digit index" requires;
the character at position 2 is already the digit `0`. -/
theorem C4_counterexample :
    (sampleStream.get_log_events 0 0 2 none true).map GetLogEventsResult.forwardToken =
      .ok (forwardTokenOf 1)
    ∧ (forwardTokenOf 1).length = 58
    ∧ (forwardTokenOf 1).toList.drop 2 = (format056 1).toList
    ∧ ((forwardTokenOf 1).toList.get? 2).all Char.isDigit = true
    ∧ ¬ (forwardTokenOf 1).length = 1 + 2 + 56 := by
  refine ⟨by decide, by decide, rfl, by decide, by decide⟩

/-- Claim C4 (amended): every cursor token produced by `get_log_events` has
the format a direction character (`f` or `b`) followed by ONE spacer character
`/` followed by the 56-character zero-padded decimal index (not two spacer
characters as claimed), and a non-empty page returns `backwardToken` encoding
`start_index` and `forwardToken` encoding `end_index` of the returned
window. -/
theorem C4_token_format (s : LogStream) (start_time end_time limit : Int)
    (next_token : Option String) (head : Bool) (r : GetLogEventsResult)
    (hok : s.get_log_events start_time end_time limit next_token head = .ok r) :
    ∃ i j : Int,
      r.backwardToken = backwardTokenOf i ∧
      r.forwardToken = forwardTokenOf j ∧
      (r.events ≠ [] →
        0 ≤ i ∧ i ≤ j ∧ j < ((s.sortedFilteredEvents start_time end_time).length : Int) ∧
        r.events = (((s.sortedFilteredEvents start_time end_time).drop i.toNat).take
          (j + 1 - i).toNat).map LogEvent.to_response_dict) := by
  rcases hparse : get_index_and_direction_from_token next_token with e | ⟨d, i⟩
  · simp only [LogStream.get_log_events, hparse] at hok
    exact absurd hok (by simp)
  · rcases hwin : computeWindow d i limit
        (((s.sortedFilteredEvents start_time end_time).length : Int) - 1) head with e | ⟨s0, e0⟩
    · simp only [LogStream.get_log_events, hparse, hwin] at hok
      exact absurd hok (by simp)
    · simp only [LogStream.get_log_events, hparse, hwin, Except.ok.injEq] at hok
      subst hok
      exact pageResult_tokens _ s0 e0

/-- Witness for C4 at the concrete first sample page. -/
theorem C4_witness :
    ∃ i j : Int,
      samplePage1.backwardToken = backwardTokenOf i ∧
      samplePage1.forwardToken = forwardTokenOf j ∧
      (samplePage1.events ≠ [] →
        0 ≤ i ∧ i ≤ j ∧ j < ((sampleStream.sortedFilteredEvents 0 0).length : Int) ∧
        samplePage1.events = (((sampleStream.sortedFilteredEvents 0 0).drop i.toNat).take
          (j + 1 - i).toNat).map LogEvent.to_response_dict) :=
  C4_token_format sampleStream 0 0 2 none true samplePage1 (by decide)

lemma put_log_events_storedBytes (s : LogStream) (now : Int) (nid : Nat)
    (batch : List InputLogEvent) :
    (s.put_log_events now nid batch).1.storedBytes =
      s.storedBytes + (batch.map (fun e => e.message.length)).sum := rfl

lemma put_log_events_sequence (s : LogStream) (now : Int) (nid : Nat)
    (batch : List InputLogEvent) :
    (s.put_log_events now nid batch).1.uploadSequenceToken = s.uploadSequenceToken + 1 := rfl

lemma put_log_events_returned (s : LogStream) (now : Int) (nid : Nat)
    (batch : List InputLogEvent) :
    (s.put_log_events now nid batch).2.2 = format056 ((s.uploadSequenceToken : Int) + 1) := rfl

lemma runPuts_storedBytes : ∀ (batches : List (Int × List InputLogEvent)) (s : LogStream) (nid : Nat),
    (runPuts s nid batches).1.storedBytes =
      s.storedBytes + (batches.map (fun b => (b.2.map (fun e => e.message.length)).sum)).sum := by
  intro batches
  induction batches with
  | nil => intro s nid; simp [runPuts]
  | cons b rest ih =>
    intro s nid
    rcases b with ⟨now, batch⟩
    simp only [runPuts, List.map_cons, List.sum_cons]
    rw [ih]
    have h := put_log_events_storedBytes s now nid batch
    omega

lemma runPuts_sequence : ∀ (batches : List (Int × List InputLogEvent)) (s : LogStream) (nid : Nat),
    (runPuts s nid batches).1.uploadSequenceToken = s.uploadSequenceToken + batches.length := by
  intro batches
  induction batches with
  | nil => intro s nid; simp [runPuts]
  | cons b rest ih =>
    intro s nid
    rcases b with ⟨now, batch⟩
    simp only [runPuts, List.length_cons]
    rw [ih]
    have h := put_log_events_sequence s now nid batch
    omega

lemma runPuts_tokens : ∀ (batches : List (Int × List InputLogEvent)) (s : LogStream) (nid : Nat),
    (runPuts s nid batches).2.2 =
      (List.range batches.length).map
        (fun k => format056 ((s.uploadSequenceToken + k + 1 : Nat) : Int)) := by
  intro batches
  induction batches with
  | nil => intro s nid; simp [runPuts]
  | cons b rest ih =>
    intro s nid
    rcases b with ⟨now, batch⟩
    simp only [runPuts, List.length_cons, List.range_succ_eq_map, List.map_cons, List.map_map]
    congr 1
    rw [ih, put_log_events_sequence]
    apply List.map_congr_left
    intro k _
    simp only [Function.comp]
    congr 2
    omega

lemma format056_length_of_lt (n : Nat) (h : n < 10 ^ 56) : (format056 (n : Int)).length = 56 := by
  have h0 : ¬ ((n : Int) < 0) := by
    simp
  rw [format056, if_neg h0]
  show (zeroPad 56 (natDigits ((n : Int)).toNat)).length = 56
  have ht : ((n : Int)).toNat = n := rfl
  rw [ht, zeroPad, List.length_append, List.length_replicate]
  have hle : (natDigits n).length ≤ 56 := natDigits_length_le n 55 h
  omega

lemma format056_digits_of_nonneg (n : Nat) :
    (format056 (n : Int)).toList.all Char.isDigit = true := by
  have h0 : ¬ ((n : Int) < 0) := by
    simp
  rw [format056, if_neg h0]
  show (zeroPad 56 (natDigits ((n : Int)).toNat)).all Char.isDigit = true
  exact zeroPad_all_digits 56 (natDigits_all_digits _)

/-- Counterexample to C5 as stated: after putting the single one-character,
two-UTF-8-byte message `"é"` into a fresh stream, `storedBytes` is 1 (the
Python `len`, a code-point count), not the UTF-8 byte length 2 that the claim
asserts. -/
theorem C5_counterexample :
    ((LogStream.init ("r") ("g") ("s") 0).put_log_events 0 0
        [{ timestamp := 0, message := "é" }]).1.storedBytes = 1
    ∧ ("é").utf8ByteSize = 2
    ∧ ((LogStream.init ("r") ("g") ("s") 0).put_log_events 0 0
        [{ timestamp := 0, message := "é" }]).1.storedBytes ≠ ("é").utf8ByteSize := by
  refine ⟨by decide, by decide, by decide⟩

/-- Claim C5 (amended): for every stream and every sequence of put calls with
arbitrary batch grouping, `storedBytes` afterwards equals the sum of the
code-point counts (Python `len`, not UTF-8 byte lengths) of all messages
across all calls, and `storedBytes` never decreases. -/
theorem C5_storedBytes_code_points :
    (∀ (s : LogStream) (now : Int) (nid : Nat) (batch : List InputLogEvent),
        (s.put_log_events now nid batch).1.storedBytes =
          s.storedBytes + (batch.map (fun e => e.message.length)).sum
      ∧ s.storedBytes ≤ (s.put_log_events now nid batch).1.storedBytes)
    ∧ (∀ (region lg name : String) (ct : Int) (nid : Nat)
        (batches : List (Int × List InputLogEvent)),
        (runPuts (LogStream.init region lg name ct) nid batches).1.storedBytes =
          (batches.map (fun b => (b.2.map (fun e => e.message.length)).sum)).sum)
    ∧ (∀ (batches : List (Int × List InputLogEvent)) (s : LogStream) (nid : Nat),
        s.storedBytes ≤ (runPuts s nid batches).1.storedBytes) := by
  refine ⟨fun s now nid batch => ⟨rfl, Nat.le_add_right _ _⟩, fun region lg name ct nid batches => ?_,
    fun batches s nid => ?_⟩
  · rw [runPuts_storedBytes]
    simp [LogStream.init]
  · rw [runPuts_storedBytes]
    exact Nat.le_add_right _ _

/-- Claim C7: each `put_log_events` call increments `uploadSequenceToken` by
exactly 1 and returns it zero-padded to 56 characters; from a fresh stream the
returned tokens across any sequence of calls are exactly the counter values
1, 2, 3, ... in order, and every such counter value below `10 ^ 56` renders as
a 56-character all-digit string. -/
theorem C7_uploadSequenceToken :
    (∀ (s : LogStream) (now : Int) (nid : Nat) (batch : List InputLogEvent),
        (s.put_log_events now nid batch).1.uploadSequenceToken = s.uploadSequenceToken + 1
      ∧ (s.put_log_events now nid batch).2.2 = format056 ((s.uploadSequenceToken : Int) + 1))
    ∧ (∀ (region lg name : String) (ct : Int) (nid : Nat)
        (batches : List (Int × List InputLogEvent)),
        (runPuts (LogStream.init region lg name ct) nid batches).1.uploadSequenceToken =
          batches.length
      ∧ (runPuts (LogStream.init region lg name ct) nid batches).2.2 =
          (List.range batches.length).map (fun k => format056 ((k + 1 : Nat) : Int)))
    ∧ (∀ n : Nat, n < 10 ^ 56 →
        (format056 (n : Int)).length = 56 ∧ (format056 (n : Int)).toList.all Char.isDigit = true) := by
  refine ⟨fun s now nid batch => ⟨rfl, rfl⟩, fun region lg name ct nid batches => ⟨?_, ?_⟩,
    fun n h => ⟨format056_length_of_lt n h, format056_digits_of_nonneg n⟩⟩
  · rw [runPuts_sequence]
    simp [LogStream.init]
  · rw [runPuts_tokens]
    apply List.map_congr_left
    intro k _
    simp [LogStream.init]

/-- Witness for C7: the counter value 1 renders as a 56-character token. -/
theorem C7_witness :
    (1 : Nat) < 10 ^ 56 ∧ (format056 ((1 : Nat) : Int)).length = 56 :=
  ⟨by norm_num, (C7_uploadSequenceToken.2.2 1 (by norm_num)).1⟩

/-- Counterexample to C6 as stated: on a group whose stream selection is empty
(here: a group with no streams at all), a non-empty filter pattern is silently
ignored — the call succeeds with an empty result instead of failing, because
the pattern check lives in the per-stream method and the loop body never
runs. -/
theorem C6_counterexample :
    emptyGroup.filter_log_events [] 0 0 10 none ("boom") true = .ok ([], none, []) := by
  decide

/-- Claim C6 (amended): a non-empty filter pattern makes `filter_log_events`
fail with the unimplemented-feature error whenever the stream selection is
non-empty; with an empty selection the pattern is silently ignored and the
call succeeds. -/
theorem C6_filter_pattern_unsupported (g : LogGroup) (log_stream_names : List String)
    (start_time end_time : Int) (limit : Nat) (next_token : Option Nat)
    (filter_pattern : String) (interleaved : Bool)
    (hpat : filter_pattern ≠ "") (hsel : g.selectedStreams log_stream_names ≠ []) :
    g.filter_log_events log_stream_names start_time end_time limit next_token
        filter_pattern interleaved =
      .error (.NotImplemented ("filter_pattern is not yet implemented")) := by
  rcases hsel2 : g.selectedStreams log_stream_names with _ | ⟨s, rest⟩
  · exact absurd hsel2 hsel
  · simp only [LogGroup.filter_log_events, hsel2, collectStreamEvents,
      LogStream.filter_log_events, if_pos hpat]

/-- Witness for C6 on the two-stream sample group with pattern `"boom"`. -/
theorem C6_witness :
    sampleGroup.filter_log_events [] 0 0 10 none ("boom") true =
      .error (.NotImplemented ("filter_pattern is not yet implemented")) :=
  C6_filter_pattern_unsupported sampleGroup [] 0 0 10 none ("boom") true
    (by decide) (by decide)

lemma collectStreamEvents_empty_pattern :
    ∀ (streams : List LogStream) (start_time end_time : Int),
    collectStreamEvents streams start_time end_time ("") =
      .ok ((streams.map (fun s => s.filteredSortedFilterEvents start_time end_time)).flatten) := by
  intro streams start_time end_time
  induction streams with
  | nil => simp [collectStreamEvents]
  | cons s rest ih =>
    simp [collectStreamEvents, LogStream.filter_log_events, ih]

/-- Claim C8: group-level `filter_log_events` with `interleaved = true`
returns a page of a single sequence sorted ascending by timestamp across all
selected streams; with `interleaved = false` the page is a slice of the
concatenation, in stream-iteration order, of each stream's time-filtered,
per-stream-sorted events — streams are not re-ordered relative to each
other. -/
theorem C8_interleaved (g : LogGroup) (log_stream_names : List String)
    (start_time end_time : Int) (limit : Nat) (next_token : Option Nat)
    (page : List FilterEvent) (ntok : Option Nat) (searched : List SearchedStream) :
    (g.filter_log_events log_stream_names start_time end_time limit next_token ("") true =
        .ok (page, ntok, searched) → page.Sorted FilterEvent.tsLe)
    ∧ (g.filter_log_events log_stream_names start_time end_time limit next_token ("") false =
        .ok (page, ntok, searched) →
      page = ((((g.selectedStreams log_stream_names).map
          (fun s => s.filteredSortedFilterEvents start_time end_time)).flatten).drop
            (match next_token with | none => 0 | some t => t)).take limit) := by
  constructor
  · intro hok
    simp only [LogGroup.filter_log_events, collectStreamEvents_empty_pattern, if_true,
      Except.ok.injEq, Prod.mk.injEq] at hok
    rcases hok with ⟨hpage, _, _⟩
    rw [← hpage]
    have hsorted := List.sorted_insertionSort FilterEvent.tsLe
      (((g.selectedStreams log_stream_names).map
        (fun s => s.filteredSortedFilterEvents start_time end_time)).flatten)
    exact List.Pairwise.sublist
      ((List.take_sublist _ _).trans (List.drop_sublist _ _)) hsorted
  · intro hok
    simp only [LogGroup.filter_log_events, collectStreamEvents_empty_pattern,
      Bool.false_eq_true, if_false, Except.ok.injEq, Prod.mk.injEq] at hok
    exact hok.1.symm

/-- Witness for C8 on the sample group: the interleaved page at `limit = 10`
is sorted by timestamp. -/
theorem C8_witness :
    sampleGroup.filter_log_events [] 0 0 10 none ("") true =
      .ok (sampleInterleavedPage, none,
        [{ logStreamName := "a", searchedCompletely := true },
         { logStreamName := "b", searchedCompletely := true }]) ∧
    sampleInterleavedPage.Sorted FilterEvent.tsLe :=
  ⟨by decide,
    (C8_interleaved sampleGroup [] 0 0 10 none sampleInterleavedPage none
      [{ logStreamName := "a", searchedCompletely := true },
       { logStreamName := "b", searchedCompletely := true }]).1 (by decide)⟩

lemma not_mem_keys_eraseP :
    ∀ (l : List (String × LogGroup)) (name : String),
    (l.map Prod.fst).Nodup → name ∉ ((l.eraseP (fun p => p.1 == name)).map Prod.fst) := by
  intro l name
  induction l with
  | nil => intro _; simp
  | cons p rest ih =>
    intro hnd
    rcases p with ⟨k, grp⟩
    rw [List.map_cons, List.nodup_cons] at hnd
    by_cases hk : k = name
    · subst hk
      have he : List.eraseP (fun p => p.1 == k) ((k, grp) :: rest) = rest := by
        simp [List.eraseP_cons]
      rw [he]
      exact hnd.1
    · have he : List.eraseP (fun p => p.1 == name) ((k, grp) :: rest) =
          (k, grp) :: List.eraseP (fun p => p.1 == name) rest := by
        simp [List.eraseP_cons, hk]
      rw [he]
      simp only [List.map_cons, List.mem_cons]
      rintro (h | h)
      · exact hk h.symm
      · exact ih hnd.2 h

/-- Claim C9: `create_log_group` succeeds exactly when the name is absent and
fails with `ResourceAlreadyExists` when present; after `delete_log_group`
removes the group, re-creating the same name succeeds again. -/
theorem C9_group_lifecycle (b : LogsBackend) (name : String)
    (tags : Option (List (String × String))) (now now2 : Int) :
    (name ∉ b.groups.map Prod.fst → ∃ b2, b.create_log_group name tags now = .ok b2)
    ∧ (name ∈ b.groups.map Prod.fst →
        b.create_log_group name tags now = .error .ResourceAlreadyExists)
    ∧ ((b.groups.map Prod.fst).Nodup → ∀ b2, b.delete_log_group name = .ok b2 →
        ∃ b3, b2.create_log_group name tags now2 = .ok b3) := by
  refine ⟨fun h => ?_, fun h => ?_, fun hnd b2 hdel => ?_⟩
  · unfold LogsBackend.create_log_group
    rw [if_neg h]
    exact ⟨_, rfl⟩
  · unfold LogsBackend.create_log_group
    rw [if_pos h]
  · unfold LogsBackend.delete_log_group at hdel
    by_cases hmem : name ∈ b.groups.map Prod.fst
    · rw [if_pos hmem] at hdel
      simp only [Except.ok.injEq] at hdel
      subst hdel
      unfold LogsBackend.create_log_group
      rw [if_neg (not_mem_keys_eraseP b.groups name hnd)]
      exact ⟨_, rfl⟩
    · rw [if_neg hmem] at hdel
      exact absurd hdel (by simp)

/-- Witness for C9: creating, re-creating (conflict) and
deleting-then-recreating the group name `"g"` on the empty registry. -/
theorem C9_witness :
    ∃ b2, emptyBackend.create_log_group ("g") none 0 = .ok b2 :=
  (C9_group_lifecycle emptyBackend ("g") none 0 0).1 (by decide)

/-- Claim C10: `get_log_events` and `filter_log_events` are read-only at the
stream level — the stream state returned by their state-passing forms has the
same `events`, `storedBytes`, `uploadSequenceToken` and `lastIngestionTime`
as the receiver (the method bodies never assign a `self` field, so an
exceptional exit likewise leaves the receiver untouched). -/
theorem C10_read_only :
    (∀ (s : LogStream) (start_time end_time limit : Int) (next_token : Option String)
        (head : Bool) (r : GetLogEventsResult) (s2 : LogStream),
        s.get_log_events_run start_time end_time limit next_token head = .ok (r, s2) →
        s2.events = s.events ∧ s2.storedBytes = s.storedBytes ∧
        s2.uploadSequenceToken = s.uploadSequenceToken ∧
        s2.lastIngestionTime = s.lastIngestionTime)
    ∧ (∀ (s : LogStream) (start_time end_time : Int) (filter_pattern : String)
        (l : List FilterEvent) (s2 : LogStream),
        s.filter_log_events_run start_time end_time filter_pattern = .ok (l, s2) →
        s2.events = s.events ∧ s2.storedBytes = s.storedBytes ∧
        s2.uploadSequenceToken = s.uploadSequenceToken ∧
        s2.lastIngestionTime = s.lastIngestionTime) := by
  constructor
  · intro s start_time end_time limit next_token head r s2 hok
    unfold LogStream.get_log_events_run at hok
    rcases hget : s.get_log_events start_time end_time limit next_token head with e | r2
    · rw [hget] at hok
      exact absurd hok (by simp)
    · rw [hget] at hok
      simp only [Except.ok.injEq, Prod.mk.injEq] at hok
      rw [← hok.2]
      exact ⟨rfl, rfl, rfl, rfl⟩
  · intro s start_time end_time filter_pattern l s2 hok
    unfold LogStream.filter_log_events_run at hok
    rcases hget : s.filter_log_events start_time end_time filter_pattern with e | l2
    · rw [hget] at hok
      exact absurd hok (by simp)
    · rw [hget] at hok
      simp only [Except.ok.injEq, Prod.mk.injEq] at hok
      rw [← hok.2]
      exact ⟨rfl, rfl, rfl, rfl⟩

/-- Witness for C10 at the concrete sample stream. -/
theorem C10_witness :
    sampleStream.get_log_events_run 0 0 2 none true = .ok (samplePage1, sampleStream) ∧
      sampleStream.events = sampleStream.events ∧
      sampleStream.storedBytes = sampleStream.storedBytes ∧
      sampleStream.uploadSequenceToken = sampleStream.uploadSequenceToken ∧
      sampleStream.lastIngestionTime = sampleStream.lastIngestionTime :=
  ⟨by decide,
    C10_read_only.1 sampleStream 0 0 2 none true samplePage1 sampleStream (by decide)⟩

end Moto
